import Mathlib

/-!
# Employee Management System: upload handler, list view and login view

A shallow embedding of

* `EMS_BACKEND/api/upload.php` (the upload handler),
* `EMS/src/pages/EmployeeList.jsx` (`fetchEmployees`, `handleDelete`),
* `EMS/src/pages/Login.jsx` (`handleSubmit`),

followed by the properties of the specification stated over it.

PHP strings are modelled as Lean strings (sequences of characters), the
handler runs on a POSIX host (`/` is the only directory separator), and the
PHP built-ins the handler calls are modelled from the PHP manual.  The three
places where PHP goes through IEEE doubles are fields of `PhpRuntime`, and the
results below hold for every runtime.
-/

set_option autoImplicit false

namespace EMS

/-! ## PHP built-ins used by `upload.php` -/

/-- The parts of the PHP runtime that go through floating point. -/
structure PhpRuntime where
  /-- Comparison `$a == $b` of two different numeric strings, for the numeric
  strings that are not both short decimal integers. -/
  numericStrEq : String → String → Bool
  /-- Cast `(int)$s` of a string that is not a short decimal integer and
  starts like a number. -/
  intCastOther : String → Int
  /-- String form of the float `$a / $b` when `$b` does not divide `$a`. -/
  floatToString : Int → Int → String

/-- The runtime whose floating-point parts answer with fixed values; used to
evaluate the handler on inputs that never reach them. -/
def plainRuntime : PhpRuntime where
  numericStrEq := fun _ _ => false
  intCastOther := fun _ => 0
  floatToString := fun _ _ => "?"

/-- Function `basename($path)` on a list of characters: trailing slashes are
dropped, then the component after the last remaining slash is returned. -/
def basenameChars (cs : List Char) : List Char :=
  ((cs.reverse.dropWhile (fun c => c == '/')).takeWhile (fun c => c != '/')).reverse

/-- Function `basename($path)`. -/
def basename (path : String) : String :=
  String.mk (basenameChars path.toList)

/-- The text after the last dot of `cs`, or nothing when `cs` has no dot. -/
def extensionChars (cs : List Char) : List Char :=
  if cs.contains '.' then (cs.reverse.takeWhile (fun c => c != '.')).reverse else []

/-- Function `pathinfo($path, PATHINFO_EXTENSION)`: the text after the last dot
of the basename of the path, the empty string when the basename has no dot. -/
def pathinfoExtension (path : String) : String :=
  String.mk (extensionChars (basenameChars path.toList))

/-- Function `strtolower($s)`: ASCII letters are lowered, other characters
are kept. -/
def strtolower (s : String) : String :=
  String.mk (s.toList.map Char.toLower)

/-- Splits a list of characters at every occurrence of `sep`. -/
def explodeChars (sep : Char) : List Char → List (List Char)
  | [] => [[]]
  | c :: cs =>
    if c = sep then [] :: explodeChars sep cs
    else
      match explodeChars sep cs with
      | [] => [[c]]
      | p :: ps => (c :: p) :: ps

/-- Function `explode($sep, $s)` for a one-character separator. -/
def explode (sep : Char) (s : String) : List String :=
  (explodeChars sep s.toList).map String.mk

/-- The characters a PHP numeric string is made of. -/
def numericChar (c : Char) : Bool :=
  c.isDigit || c == '+' || c == '-' || c == '.' || c == 'e' || c == 'E' ||
  c == ' ' || c == '\t' || c == '\n' || c == '\r' || c == Char.ofNat 11 || c == Char.ofNat 12

/-- A string that is certainly not a PHP numeric string: it has a character no
numeric string contains, or it has no digit. -/
def nonNumeric (s : String) : Bool :=
  !(s.toList.all numericChar) || !(s.toList.any Char.isDigit)

/-- Value of a non-empty list of at most nine decimal digits. -/
def digitsValue (cs : List Char) : Option Nat :=
  if cs ≠ [] ∧ cs.length ≤ 9 ∧ cs.all Char.isDigit = true then
    some (cs.foldl (fun acc c => 10 * acc + (c.toNat - 48)) 0)
  else none

/-- A short decimal integer: an optional sign and one to nine digits. PHP reads
such a string as the integer it denotes, on every platform. -/
def shortInt (s : String) : Option Int :=
  match s.toList with
  | '-' :: ds => (digitsValue ds).map (fun n => - (n : Int))
  | '+' :: ds => (digitsValue ds).map (fun n => (n : Int))
  | ds => (digitsValue ds).map (fun n => (n : Int))

/-- Comparison `$a == $b` of two strings: identical strings are equal; a string
that is not numeric is equal to no other string; two numeric strings are
compared as numbers. -/
def looseEq (rt : PhpRuntime) (a b : String) : Bool :=
  if a = b then true
  else if nonNumeric a || nonNumeric b then false
  else
    match shortInt a, shortInt b with
    | some x, some y => x == y
    | _, _ => rt.numericStrEq a b

/-- Function `in_array($needle, $haystack)` without the strict flag: the
elements are compared with `==`. -/
def in_array (rt : PhpRuntime) (needle : String) (haystack : List String) : Bool :=
  haystack.any (fun h => looseEq rt needle h)

/-- Cast `(int)$s`: a short decimal integer is its value, a string that does
not start like a number is 0. -/
def intCast (rt : PhpRuntime) (s : String) : Int :=
  match shortInt s with
  | some v => v
  | none =>
    match s.toList with
    | [] => 0
    | c :: _ => if numericChar c && c != 'e' && c != 'E' then rt.intCastOther s else 0

/-- Text of `$a / $b` appended to a string: the quotient as a decimal integer
when `$b` divides `$a`, the text of the float otherwise. -/
def divToString (rt : PhpRuntime) (a b : Int) : String :=
  if a % b = 0 then toString (a / b) else rt.floatToString a b

/-- The `w` low hexadecimal digits of `n`, most significant first. -/
def hexFixed : Nat → Nat → List Char
  | 0, _ => []
  | w + 1, n => hexFixed w (n / 16) ++ [Nat.digitChar (n % 16)]

/-- Function `uniqid()` at clock time `sec` seconds and `usec` microseconds:
PHP prints the seconds as a 32-bit integer with `%08x` and the microseconds
modulo `0x100000` with `%05x`, thirteen hexadecimal digits in all. -/
def uniqid (sec usec : Nat) : String :=
  String.mk (hexFixed 8 sec ++ hexFixed 5 usec)

/-! ## `upload.php` -/

/-- Transport error code of a successful upload. -/
def UPLOAD_ERR_OK : Int := 0
/-- The file exceeds `upload_max_filesize`. -/
def UPLOAD_ERR_INI_SIZE : Int := 1
/-- The file exceeds the form's `MAX_FILE_SIZE`. -/
def UPLOAD_ERR_FORM_SIZE : Int := 2
/-- The file was only partially uploaded. -/
def UPLOAD_ERR_PARTIAL : Int := 3
/-- No file was uploaded. -/
def UPLOAD_ERR_NO_FILE : Int := 4
/-- The temporary folder is missing. -/
def UPLOAD_ERR_NO_TMP_DIR : Int := 6
/-- The file could not be written to disk. -/
def UPLOAD_ERR_CANT_WRITE : Int := 7
/-- A PHP extension stopped the upload. -/
def UPLOAD_ERR_EXTENSION : Int := 8

/-- Function `upload_error_message($error_code)`. -/
def upload_error_message (error_code : Int) : String :=
  if error_code = UPLOAD_ERR_INI_SIZE then
    "The uploaded file exceeds the upload_max_filesize directive in php.ini"
  else if error_code = UPLOAD_ERR_FORM_SIZE then
    "The uploaded file exceeds the MAX_FILE_SIZE directive in the HTML form"
  else if error_code = UPLOAD_ERR_PARTIAL then
    "The uploaded file was only partially uploaded"
  else if error_code = UPLOAD_ERR_NO_FILE then
    "No file was uploaded"
  else if error_code = UPLOAD_ERR_NO_TMP_DIR then
    "Missing a temporary folder"
  else if error_code = UPLOAD_ERR_CANT_WRITE then
    "Failed to write file to disk"
  else if error_code = UPLOAD_ERR_EXTENSION then
    "A PHP extension stopped the file upload"
  else
    "Unknown upload error"

/-- The user record `validateToken()` returns; the handler reads its `id`. -/
structure User where
  id : Int
  deriving DecidableEq, Repr

/-- The entry `$_FILES['file']`. -/
structure UploadedFile where
  name : String
  tmp_name : String
  error : Int
  size : Nat
  deriving DecidableEq, Repr

/-- Everything one run of the handler reads: the outcome of `validateToken()`
(a user, or the message of the exception it throws), the request fields, the
state of the file system and the clock. -/
structure Request where
  auth : Except String User
  file : Option UploadedFile
  allowedTypes : Option String
  maxSize : Option String
  dirExists : Bool
  moveSucceeds : Bool
  sec : Nat
  usec : Nat

/-- What the handler does to the world, in order. -/
inductive Effect where
  | mkdir (dir : String)
  | moveUploadedFile (tmp dest : String) (moved : Bool)
  | logActivity (userId : Int) (text : String)
  deriving DecidableEq, Repr

/-- The `file` object of a successful response. -/
structure FileInfo where
  name : String
  original_name : String
  path : String
  url : String
  type : String
  size : Nat
  deriving DecidableEq, Repr

/-- The JSON body the handler echoes. -/
inductive Body where
  | failure (message : String)
  | success (message : String) (file : FileInfo)
  deriving DecidableEq, Repr

/-- One run of the handler: HTTP status, body and effects. -/
structure Outcome where
  status : Nat
  body : Body
  effects : List Effect
  deriving DecidableEq, Repr

/-- The fixed upload directory `$uploadDir`. -/
def uploadDir : String := "../uploads/"

/-- The value of `$filename`: `uniqid() . '_' . basename($_FILES['file']['name'])`. -/
def filename (r : Request) (f : UploadedFile) : String :=
  uniqid r.sec r.usec ++ "_" ++ basename f.name

/-- The value of `$uploadFile`. -/
def uploadFile (r : Request) (f : UploadedFile) : String :=
  uploadDir ++ filename r f

/-- The value of `$fileType`. -/
def fileType (r : Request) (f : UploadedFile) : String :=
  strtolower (pathinfoExtension (uploadFile r f))

/-- The nine default extensions. -/
def defaultTypes : List String :=
  ["jpg", "jpeg", "png", "gif", "pdf", "doc", "docx", "xls", "xlsx"]

/-- The value of `$allowedTypes`. -/
def allowedTypes (r : Request) : List String :=
  match r.allowedTypes with
  | some s => explode ',' s
  | none => defaultTypes

/-- The value of `$maxSize`. -/
def maxSize (rt : PhpRuntime) (r : Request) : Int :=
  match r.maxSize with
  | some s => intCast rt s
  | none => 10000000

/-- The message of a size rejection. -/
def tooLargeMessage (rt : PhpRuntime) (m : Int) : String :=
  "File is too large. Maximum size is " ++ divToString rt m 1000000 ++ "MB"

/-- The script `upload.php`. A run that stops at `exit` returns what it has
echoed and done so far. -/
def upload (rt : PhpRuntime) (r : Request) : Outcome :=
  match r.auth with
  | .error message => { status := 401, body := .failure message, effects := [] }
  | .ok user =>
    match r.file with
    | none => { status := 200, body := .failure "No file uploaded", effects := [] }
    | some f =>
      if f.error ≠ UPLOAD_ERR_OK then
        { status := 200, body := .failure (upload_error_message f.error), effects := [] }
      else
        let made : List Effect := if r.dirExists then [] else [.mkdir uploadDir]
        if !in_array rt (fileType r f) (allowedTypes r) then
          { status := 200, body := .failure "File type not allowed", effects := made }
        else if (f.size : Int) > maxSize rt r then
          { status := 200, body := .failure (tooLargeMessage rt (maxSize rt r)), effects := made }
        else if r.moveSucceeds then
          { status := 200
            body := .success "File uploaded successfully"
              { name := filename r f
                original_name := f.name
                path := uploadFile r f
                url := "/uploads/" ++ filename r f
                type := fileType r f
                size := f.size }
            effects := made ++
              [.moveUploadedFile f.tmp_name (uploadFile r f) true,
               .logActivity user.id ("Uploaded file: " ++ filename r f)] }
        else
          { status := 200, body := .failure "Failed to upload file"
            effects := made ++ [.moveUploadedFile f.tmp_name (uploadFile r f) false] }

/-- The effect is a call of `move_uploaded_file`. -/
def Effect.isMove : Effect → Bool
  | .moveUploadedFile _ _ _ => true
  | _ => false

/-! ## JavaScript values and requests shared by the two views -/

/-- The JSON scalars the views read from a response, and `undefined` for a
field that is absent. Numbers are the integers. -/
inductive JsVal where
  | undefined
  | null
  | bool (b : Bool)
  | num (n : Int)
  | str (s : String)
  deriving DecidableEq, Repr

/-- The body of an error response. -/
structure ErrorData where
  message : JsVal

/-- The `response` of an error thrown by axios. -/
structure ErrorResponse where
  status : Int
  data : Option ErrorData

/-- An error caught by a view: `response` is absent when no response arrived
and for an error that is not thrown by axios. -/
structure ThrownError where
  response : Option ErrorResponse

/-- Expression `error.response?.data?.message`. -/
def ThrownError.message (e : ThrownError) : JsVal :=
  match e.response with
  | none => .undefined
  | some response =>
    match response.data with
    | none => .undefined
    | some data => data.message

/-- The outcome of an awaited axios call: it resolves with `response.data`
(`none` for a `null` body) or throws. -/
inductive AxiosResult (α : Type) where
  | resolved (data : Option α)
  | rejected (error : ThrownError)

/-- An employee row as the list view renders it. -/
structure Employee where
  id : JsVal
  name : JsVal
  email : JsVal
  phone : JsVal
  department_name : JsVal
  position : JsVal
  hire_date : JsVal
  salary : JsVal
  status : JsVal
  profile_image : JsVal
  deriving DecidableEq, Repr

/-- The state of the list view. -/
structure ListState where
  employees : List Employee
  error : JsVal
  isLoading : Bool
  deriving DecidableEq, Repr

/-- Function `handleDelete`, given the user's answer to the confirmation and
the outcome of the delete request. -/
def handleDelete (s : ListState) (confirmed : Bool) (id : JsVal)
    (result : AxiosResult Unit) : ListState :=
  if !confirmed then s
  else
    match result with
    | .resolved _ => { s with employees := s.employees.filter (fun employee => employee.id != id) }
    | .rejected _ => { s with error := .str "Failed to delete employee. Please try again." }

/-! ## `Login.jsx` -/

/-- An employee with the given id and name. -/
def employee (id : Int) (name : String) : Employee :=
  { id := .num id, name := .str name, email := .null, phone := .null,
    department_name := .null, position := .null, hire_date := .null, salary := .null,
    status := .str "Active", profile_image := .null }

/-- A list view showing three employees. -/
def threeEmployees : ListState :=
  { employees := [employee 1 "Ana", employee 2 "Ben", employee 3 "Cy"],
    error := .str "", isLoading := false }

/-- An error carrying a response with the given status. -/
def httpError (status : Int) : ThrownError :=
  { response := some { status := status, data := none } }

/-- A valid upload of `dir/Photo.PNG` by user 7 into a directory that does not
exist yet. -/
def photoRequest : Request :=
  { auth := .ok ⟨7⟩, file := some ⟨"dir/Photo.PNG", "/tmp/php1", 0, 10000000⟩,
    allowedTypes := none, maxSize := none, dirExists := false, moveSucceeds := true,
    sec := 1700000000, usec := 123456 }

/-- The same upload one microsecond later. -/
def photoRequestLater : Request := { photoRequest with usec := 123457 }

/-- An upload of `report.pdf`, 5,000,001 bytes, with `maxSize=5000000`. -/
def bigFileRequest : Request :=
  { auth := .ok ⟨7⟩, file := some ⟨"report.pdf", "/tmp/php2", 0, 5000001⟩,
    allowedTypes := none, maxSize := some "5000000", dirExists := true, moveSucceeds := true,
    sec := 1700000000, usec := 123456 }

/-- An upload of `scan.1` with `allowedTypes=01`. -/
def scanRequest : Request :=
  { auth := .ok ⟨7⟩, file := some ⟨"scan.1", "/tmp/php3", 0, 2048⟩,
    allowedTypes := some "01", maxSize := none, dirExists := true, moveSucceeds := true,
    sec := 1700000000, usec := 123456 }

/-- An upload of `photo.JPG` with `allowedTypes=JPG,PNG`. -/
def upperRequest : Request :=
  { auth := .ok ⟨7⟩, file := some ⟨"photo.JPG", "/tmp/php4", 0, 2048⟩,
    allowedTypes := some "JPG,PNG", maxSize := none, dirExists := true, moveSucceeds := true,
    sec := 1700000000, usec := 123456 }

/-- An authenticated request whose file was only partially uploaded. -/
def brokenTransferRequest : Request :=
  { auth := .ok ⟨7⟩, file := some ⟨"a.png", "", 3, 0⟩,
    allowedTypes := none, maxSize := none, dirExists := false, moveSucceeds := true,
    sec := 1700000000, usec := 123456 }

/-- A request whose token is rejected by `validateToken`. -/
def badTokenRequest : Request :=
  { photoRequest with auth := .error "Invalid or expired token" }

/-! ## Lemmas on the string functions -/

theorem takeWhile_append_stop {α : Type} (p : α → Bool) (l r : List α) (x : α)
    (hl : ∀ a ∈ l, p a = true) (hx : p x = false) :
    (l ++ x :: r).takeWhile p = l := by
  induction l with
  | nil => simp [List.takeWhile, hx]
  | cons a t ih =>
    have ha : p a = true := hl a (List.mem_cons_self a t)
    have ht : ∀ b ∈ t, p b = true := fun b hb => hl b (List.mem_cons_of_mem a hb)
    simp [List.takeWhile, ha, ih ht]

theorem takeWhile_all {α : Type} (p : α → Bool) (l : List α)
    (hl : ∀ a ∈ l, p a = true) : l.takeWhile p = l := by
  induction l with
  | nil => rfl
  | cons a t ih =>
    have ha : p a = true := hl a (List.mem_cons_self a t)
    have ht : ∀ b ∈ t, p b = true := fun b hb => hl b (List.mem_cons_of_mem a hb)
    simp [List.takeWhile, ha, ih ht]

theorem mem_takeWhile_imp {α : Type} (p : α → Bool) (l : List α) (a : α)
    (h : a ∈ l.takeWhile p) : p a = true := by
  induction l with
  | nil => simp at h
  | cons b t ih =>
    by_cases hb : p b = true
    · simp only [List.takeWhile, hb, List.mem_cons] at h
      rcases h with h | h
      · exact h ▸ hb
      · exact ih h
    · simp [List.takeWhile, hb] at h

theorem takeWhile_append_of_stop_mem {α : Type} (p : α → Bool) (l r : List α)
    (h : ∃ a ∈ l, p a = false) : (l ++ r).takeWhile p = l.takeWhile p := by
  induction l with
  | nil => simp at h
  | cons b t ih =>
    by_cases hb : p b = true
    · obtain ⟨a, ha, hpa⟩ := h
      have hat : a ∈ t := by
        rcases List.mem_cons.mp ha with e | e
        · rw [e, hb] at hpa; exact absurd hpa (by simp)
        · exact e
      simp [List.takeWhile, hb, ih ⟨a, hat, hpa⟩]
    · simp [List.takeWhile, hb]

/-- The result of `basename` has no slash. -/
theorem basenameChars_no_slash (cs : List Char) : '/' ∉ basenameChars cs := by
  intro h
  unfold basenameChars at h
  rw [List.mem_reverse] at h
  have := mem_takeWhile_imp _ _ _ h
  simp at this

/-- The basename of `dir/f` is `f`, for a non-empty `f` without slash. -/
theorem basenameChars_dir_append (d f : List Char) (hne : f ≠ []) (hf : '/' ∉ f) :
    basenameChars (d ++ '/' :: f) = f := by
  unfold basenameChars
  have hrev : (d ++ '/' :: f).reverse = f.reverse ++ '/' :: d.reverse := by simp
  rw [hrev]
  have hall : ∀ a ∈ f.reverse, (fun c : Char => c != '/') a = true := by
    intro a ha
    have : a ≠ '/' := fun e => hf (e ▸ List.mem_reverse.mp ha)
    simpa using this
  have hdrop : (f.reverse ++ '/' :: d.reverse).dropWhile (fun c => c == '/')
      = f.reverse ++ '/' :: d.reverse := by
    cases hr : f.reverse with
    | nil => exact absurd (List.reverse_eq_nil_iff.mp hr) hne
    | cons a t =>
      have ha : a ≠ '/' := by
        have := hall a (hr ▸ List.mem_cons_self a t)
        simpa using this
      have hab : (a == '/') = false := by simpa using ha
      simp [List.dropWhile, hab]
  rw [hdrop, takeWhile_append_stop _ _ _ _ hall (by simp), List.reverse_reverse]

/-- A dot-free prefix does not change the extension. -/
theorem extensionChars_append (t b : List Char) (ht : '.' ∉ t) :
    extensionChars (t ++ b) = extensionChars b := by
  unfold extensionChars
  by_cases hb : '.' ∈ b
  · have hstop : ∃ a ∈ b.reverse, (fun c : Char => c != '.') a = false :=
      ⟨'.', List.mem_reverse.mpr hb, by simp⟩
    simp [hb, takeWhile_append_of_stop_mem _ _ _ hstop]
  · simp [ht, hb]

/-- A hexadecimal digit is neither a slash nor a dot. -/
theorem digitChar_hex (d : Nat) (hd : d < 16) :
    Nat.digitChar d ≠ '/' ∧ Nat.digitChar d ≠ '.' := by
  interval_cases d <;> decide

theorem hexFixed_chars (w n : Nat) : ∀ c ∈ hexFixed w n, c ≠ '/' ∧ c ≠ '.' := by
  induction w generalizing n with
  | zero => intro c hc; simp [hexFixed] at hc
  | succ w ih =>
    intro c hc
    simp only [hexFixed, List.mem_append, List.mem_singleton] at hc
    rcases hc with hc | hc
    · exact ih _ c hc
    · exact hc ▸ digitChar_hex _ (Nat.mod_lt _ (by decide))

/-- The token of `uniqid` has neither a slash nor a dot. -/
theorem uniqid_chars (sec usec : Nat) :
    ∀ c ∈ (uniqid sec usec).toList, c ≠ '/' ∧ c ≠ '.' := by
  intro c hc
  simp only [uniqid, String.toList, List.mem_append] at hc
  rcases hc with hc | hc
  · exact hexFixed_chars _ _ c hc
  · exact hexFixed_chars _ _ c hc

theorem filename_toList (r : Request) (f : UploadedFile) :
    (filename r f).toList
      = (uniqid r.sec r.usec).toList ++ '_' :: basenameChars f.name.toList := by
  simp [filename, basename, String.toList]

/-- The stored name has no slash. -/
theorem filename_no_slash (r : Request) (f : UploadedFile) :
    '/' ∉ (filename r f).toList := by
  rw [filename_toList]
  intro h
  rcases List.mem_append.mp h with h | h
  · exact (uniqid_chars _ _ _ h).1 rfl
  · rcases List.mem_cons.mp h with h | h
    · exact absurd h (by decide)
    · exact basenameChars_no_slash _ h

/-- The extension `pathinfo` finds in `$uploadFile` is the extension of the
client's file name. -/
theorem pathinfoExtension_uploadFile (r : Request) (f : UploadedFile) :
    pathinfoExtension (uploadFile r f) = pathinfoExtension f.name := by
  have hne : (filename r f).toList ≠ [] := by
    rw [filename_toList]; simp
  have hdir : (uploadFile r f).toList
      = "../uploads".toList ++ '/' :: (filename r f).toList := by
    simp [uploadFile, uploadDir, String.toList]
  unfold pathinfoExtension
  rw [hdir, basenameChars_dir_append _ _ hne (filename_no_slash r f), filename_toList]
  have hsplit : (uniqid r.sec r.usec).toList ++ '_' :: basenameChars f.name.toList
      = ((uniqid r.sec r.usec).toList ++ ['_']) ++ basenameChars f.name.toList := by simp
  rw [hsplit, extensionChars_append]
  intro h
  rcases List.mem_append.mp h with h | h
  · exact (uniqid_chars _ _ _ h).2 rfl
  · exact absurd (List.mem_singleton.mp h) (by decide)

/-- The value of `$fileType` is the lowercased extension of the client's file
name. -/
theorem fileType_eq (r : Request) (f : UploadedFile) :
    fileType r f = strtolower (pathinfoExtension f.name) := by
  rw [fileType, pathinfoExtension_uploadFile]

theorem string_append_right_cancel (a b c : String) (h : a ++ c = b ++ c) : a = b := by
  have hd := congrArg String.data h
  simp only [String.data_append] at hd
  exact String.ext (List.append_cancel_right hd)

theorem string_append_left_cancel (a b c : String) (h : c ++ a = c ++ b) : a = b := by
  have hd := congrArg String.data h
  simp only [String.data_append] at hd
  exact String.ext (List.append_cancel_left hd)

/-- A size rejection is not the message of a failed move. -/
theorem tooLargeMessage_ne_failed (rt : PhpRuntime) (m : Int) :
    tooLargeMessage rt m ≠ "Failed to upload file" := by
  intro h
  have hd := congrArg String.data h
  simp [tooLargeMessage, String.data_append] at hd

/-- A size rejection is not the message of a type rejection. -/
theorem tooLargeMessage_ne_type (rt : PhpRuntime) (m : Int) :
    tooLargeMessage rt m ≠ "File type not allowed" := by
  intro h
  have hd := congrArg String.data h
  simp [tooLargeMessage, String.data_append] at hd

/-- The effects of a run that stops before `move_uploaded_file`. -/
theorem made_no_move (b : Bool) :
    ∀ e ∈ (if b then ([] : List Effect) else [Effect.mkdir uploadDir]), e.isMove = false := by
  intro e he
  cases b <;> simp at he
  subst he
  rfl

/-! ## The upload handler: validation order and rejections -/

/-- C7: a request on which `validateToken` fails is answered with status 401
and the validator's message and has no effect at all; any effect of any run
(directory creation, file move, activity log) implies that `validateToken`
returned a user. -/
theorem upload_token_gate (rt : PhpRuntime) (r : Request) (message : String)
    (hfail : r.auth = .error message) :
    upload rt r = { status := 401, body := .failure message, effects := [] } ∧
    (∀ (rt2 : PhpRuntime) (r2 : Request), r2.auth = r.auth → upload rt2 r2 = upload rt r) ∧
    (∀ (rt2 : PhpRuntime) (r2 : Request), ∀ e ∈ (upload rt2 r2).effects,
      ∃ user, r2.auth = .ok user) := by
  refine ⟨by simp [upload, hfail], ?_, ?_⟩
  · intro rt2 r2 h2
    simp [upload, hfail, h2.trans hfail]
  · intro rt2 r2 e he
    cases h : r2.auth with
    | error m => simp [upload, h] at he
    | ok user => exact ⟨user, rfl⟩

/-- C6: an authenticated request without a `file` field, or whose file has a
transport error, is answered with a failure and a non-empty message, before
anything else runs: no effect, and the answer depends on nothing but the file
field. The message function never returns the empty string and returns
`Unknown upload error` outside the seven named codes. -/
theorem upload_missing_or_failed_file (rt : PhpRuntime) (r : Request) (user : User)
    (hauth : r.auth = .ok user)
    (hfile : r.file = none ∨ ∃ f, r.file = some f ∧ f.error ≠ UPLOAD_ERR_OK) :
    (∃ message, upload rt r = { status := 200, body := .failure message, effects := [] } ∧
      message ≠ "" ∧
      (r.file = none → message = "No file uploaded") ∧
      (∀ f, r.file = some f → message = upload_error_message f.error)) ∧
    (∀ (rt2 : PhpRuntime) (r2 : Request) (user2 : User), r2.auth = .ok user2 →
      r2.file = r.file → upload rt2 r2 = upload rt r) ∧
    (∀ code : Int, upload_error_message code ≠ "") ∧
    (∀ code : Int, code ≠ UPLOAD_ERR_INI_SIZE → code ≠ UPLOAD_ERR_FORM_SIZE →
      code ≠ UPLOAD_ERR_PARTIAL → code ≠ UPLOAD_ERR_NO_FILE → code ≠ UPLOAD_ERR_NO_TMP_DIR →
      code ≠ UPLOAD_ERR_CANT_WRITE → code ≠ UPLOAD_ERR_EXTENSION →
      upload_error_message code = "Unknown upload error") := by
  have hne : ∀ code : Int, upload_error_message code ≠ "" := by
    intro code
    unfold upload_error_message
    split_ifs <;> decide
  refine ⟨?_, ?_, hne, ?_⟩
  · rcases hfile with h | ⟨f, h, herr⟩
    · exact ⟨"No file uploaded", by simp [upload, hauth, h], by decide, fun _ => rfl,
        fun f hf => by simp [h] at hf⟩
    · refine ⟨upload_error_message f.error, by simp [upload, hauth, h, herr], hne _,
        fun hn => by simp [h] at hn, fun g hg => ?_⟩
      have : f = g := by simpa [h] using hg
      rw [this]
  · intro rt2 r2 user2 h2 hf2
    rcases hfile with h | ⟨f, h, herr⟩
    · simp [upload, hauth, h2, h, hf2.trans h]
    · simp [upload, hauth, h2, h, hf2.trans h, herr]
  · intro code h1 h2 h3 h4 h5 h6 h7
    simp [upload_error_message, h1, h2, h3, h4, h5, h6, h7]

/-- C3: a request that passes the token, file and extension checks is rejected
for size exactly when the file size is strictly greater than `$maxSize` (the
cast of the `maxSize` field, 10,000,000 without one); the rejection carries the
message with `$maxSize / 1000000` and `MB` (`10MB` for the default, the decimal
quotient whenever 1,000,000 divides `$maxSize`) and never reaches
`move_uploaded_file`. -/
theorem upload_size_check (rt : PhpRuntime) (r : Request) (user : User) (f : UploadedFile)
    (hauth : r.auth = .ok user) (hfile : r.file = some f) (herr : f.error = UPLOAD_ERR_OK)
    (htype : in_array rt (fileType r f) (allowedTypes r) = true) :
    ((upload rt r).body = .failure (tooLargeMessage rt (maxSize rt r))
      ↔ (f.size : Int) > maxSize rt r) ∧
    ((f.size : Int) > maxSize rt r →
      (upload rt r).status = 200 ∧ ∀ e ∈ (upload rt r).effects, e.isMove = false) ∧
    ((f.size : Int) = maxSize rt r →
      (upload rt r).body ≠ .failure (tooLargeMessage rt (maxSize rt r))) ∧
    (∀ s, r.maxSize = some s → maxSize rt r = intCast rt s) ∧
    (r.maxSize = none → maxSize rt r = 10000000 ∧
      tooLargeMessage rt (maxSize rt r) = "File is too large. Maximum size is 10MB") ∧
    (maxSize rt r % 1000000 = 0 → tooLargeMessage rt (maxSize rt r)
      = "File is too large. Maximum size is " ++ toString (maxSize rt r / 1000000) ++ "MB") := by
  have hiff : (upload rt r).body = .failure (tooLargeMessage rt (maxSize rt r))
      ↔ (f.size : Int) > maxSize rt r := by
    constructor
    · intro hb
      by_contra hle
      by_cases hm : r.moveSucceeds = true
      · simp [upload, hauth, hfile, herr, htype, hle, hm] at hb
      · simp [upload, hauth, hfile, herr, htype, hle, hm] at hb
        exact tooLargeMessage_ne_failed rt _ hb.symm
    · intro hgt
      simp [upload, hauth, hfile, herr, htype, hgt]
  refine ⟨hiff, ?_, ?_, ?_, ?_, ?_⟩
  · intro hgt
    constructor
    · simp [upload, hauth, hfile, herr, htype, hgt]
    · have he : (upload rt r).effects
          = if r.dirExists then [] else [Effect.mkdir uploadDir] := by
        simp [upload, hauth, hfile, herr, htype, hgt]
      rw [he]
      exact made_no_move _
  · intro heq hb
    have := hiff.mp hb
    omega
  · intro s hs
    simp [maxSize, hs]
  · intro hn
    have hm : maxSize rt r = 10000000 := by simp [maxSize, hn]
    refine ⟨hm, ?_⟩
    rw [hm]
    rfl
  · intro hdiv
    simp [tooLargeMessage, divToString, hdiv]

/-- C4: the stored name is the `uniqid` token, an underscore and the basename
of the original name; two uploads of the same original name whose tokens differ
get different stored names and different write paths. -/
theorem filename_distinct (r1 r2 : Request) (f1 f2 : UploadedFile)
    (hname : f1.name = f2.name)
    (htoken : uniqid r1.sec r1.usec ≠ uniqid r2.sec r2.usec) :
    filename r1 f1 = uniqid r1.sec r1.usec ++ "_" ++ basename f1.name ∧
    filename r2 f2 = uniqid r2.sec r2.usec ++ "_" ++ basename f1.name ∧
    filename r1 f1 ≠ filename r2 f2 ∧
    uploadFile r1 f1 ≠ uploadFile r2 f2 := by
  have hne : filename r1 f1 ≠ filename r2 f2 := by
    intro h
    unfold filename at h
    rw [hname] at h
    exact htoken (string_append_right_cancel _ _ _ (string_append_right_cancel _ _ _ h))
  refine ⟨rfl, by rw [filename, hname], hne, ?_⟩
  intro h
  exact hne (string_append_left_cancel _ _ _ h)

/-- C5: whatever the original name, the stored name has no slash, the write
path is `../uploads/` followed by the stored name, every call of
`move_uploaded_file` writes to that path, every directory created is
`../uploads/`, and a successful response returns the stored name and the url
`/uploads/` followed by it. -/
theorem upload_fixed_directory (rt : PhpRuntime) (r : Request) (f : UploadedFile)
    (hfile : r.file = some f) :
    '/' ∉ (filename r f).toList ∧
    filename r f = uniqid r.sec r.usec ++ "_" ++ basename f.name ∧
    uploadFile r f = "../uploads/" ++ filename r f ∧
    (∀ e ∈ (upload rt r).effects,
      (∀ tmp dest moved, e = .moveUploadedFile tmp dest moved →
        dest = "../uploads/" ++ filename r f) ∧
      (∀ dir, e = .mkdir dir → dir = "../uploads/")) ∧
    (∀ message info, (upload rt r).body = .success message info →
      info.name = filename r f ∧ info.path = "../uploads/" ++ filename r f ∧
      info.url = "/uploads/" ++ filename r f) := by
  refine ⟨filename_no_slash r f, rfl, rfl, ?_, ?_⟩
  · intro e he
    cases hauth : r.auth with
    | error m => simp [upload, hauth] at he
    | ok user =>
      simp only [upload, hauth, hfile] at he
      split_ifs at he <;> aesop
  · intro message info hb
    cases hauth : r.auth with
    | error m => simp [upload, hauth] at hb
    | ok user =>
      simp only [upload, hauth, hfile] at hb
      split_ifs at hb <;> simp at hb
      all_goals
        obtain ⟨-, rfl⟩ := hb
        simp [uploadFile, uploadDir]

theorem upload_token_gate_witness :
    badTokenRequest.auth = .error "Invalid or expired token" ∧
    upload plainRuntime badTokenRequest
      = { status := 401, body := .failure "Invalid or expired token", effects := [] } :=
  ⟨rfl, (upload_token_gate plainRuntime badTokenRequest "Invalid or expired token" rfl).1⟩

theorem upload_missing_or_failed_file_witness :
    brokenTransferRequest.auth = .ok ⟨7⟩ ∧
    (∃ f, brokenTransferRequest.file = some f ∧ f.error ≠ UPLOAD_ERR_OK) ∧
    ∃ message, upload plainRuntime brokenTransferRequest
        = { status := 200, body := .failure message, effects := [] } ∧
      message ≠ "" ∧
      (brokenTransferRequest.file = none → message = "No file uploaded") ∧
      (∀ f, brokenTransferRequest.file = some f → message = upload_error_message f.error) :=
  ⟨rfl, ⟨⟨"a.png", "", 3, 0⟩, rfl, by decide⟩,
    (upload_missing_or_failed_file plainRuntime brokenTransferRequest ⟨7⟩ rfl
      (Or.inr ⟨⟨"a.png", "", 3, 0⟩, rfl, by decide⟩)).1⟩

theorem upload_size_check_witness :
    in_array plainRuntime (fileType bigFileRequest ⟨"report.pdf", "/tmp/php2", 0, 5000001⟩)
      (allowedTypes bigFileRequest) = true ∧
    ((5000001 : Int) > maxSize plainRuntime bigFileRequest) ∧
    (upload plainRuntime bigFileRequest).body
      = .failure "File is too large. Maximum size is 5MB" :=
  ⟨by decide, by decide,
    (upload_size_check plainRuntime bigFileRequest ⟨7⟩ ⟨"report.pdf", "/tmp/php2", 0, 5000001⟩
      rfl rfl rfl (by decide)).1.mpr (by decide)⟩

theorem filename_distinct_witness :
    uniqid photoRequest.sec photoRequest.usec
      ≠ uniqid photoRequestLater.sec photoRequestLater.usec ∧
    filename photoRequest ⟨"a.png", "/tmp/php1", 0, 10⟩
      ≠ filename photoRequestLater ⟨"a.png", "/tmp/php5", 0, 20⟩ :=
  ⟨by decide,
    (filename_distinct photoRequest photoRequestLater ⟨"a.png", "/tmp/php1", 0, 10⟩
      ⟨"a.png", "/tmp/php5", 0, 20⟩ rfl (by decide)).2.2.1⟩

theorem upload_fixed_directory_witness :
    photoRequest.file = some ⟨"dir/Photo.PNG", "/tmp/php1", 0, 10000000⟩ ∧
    '/' ∉ (filename photoRequest ⟨"dir/Photo.PNG", "/tmp/php1", 0, 10000000⟩).toList ∧
    filename photoRequest ⟨"dir/Photo.PNG", "/tmp/php1", 0, 10000000⟩
      = "6553f1001e240_Photo.PNG" :=
  ⟨rfl,
    (upload_fixed_directory plainRuntime photoRequest
      ⟨"dir/Photo.PNG", "/tmp/php1", 0, 10000000⟩ rfl).1,
    by decide⟩

/-! ## The extension check -/

/-- With a non-numeric string on either side, `==` is string equality. -/
theorem looseEq_of_nonNumeric (rt : PhpRuntime) (a b : String)
    (h : nonNumeric a = true ∨ nonNumeric b = true) :
    looseEq rt a b = decide (a = b) := by
  unfold looseEq
  by_cases hab : a = b
  · simp [hab]
  · rcases h with h | h <;> simp [hab, h]

/-- Identical strings are equal under `==`. -/
theorem looseEq_self (rt : PhpRuntime) (a : String) : looseEq rt a a = true := by
  simp [looseEq]

/-- A member of the haystack is found by `in_array`. -/
theorem in_array_of_mem (rt : PhpRuntime) (x : String) (l : List String) (h : x ∈ l) :
    in_array rt x l = true := by
  simp only [in_array, List.any_eq_true]
  exact ⟨x, h, looseEq_self rt x⟩

/-- When the needle is not numeric, or no element of the haystack is, `in_array`
is membership. -/
theorem in_array_iff_mem (rt : PhpRuntime) (x : String) (l : List String)
    (h : nonNumeric x = true ∨ ∀ a ∈ l, nonNumeric a = true) :
    in_array rt x l = true ↔ x ∈ l := by
  constructor
  · intro hin
    simp only [in_array, List.any_eq_true] at hin
    obtain ⟨a, ha, hxa⟩ := hin
    have hn : nonNumeric x = true ∨ nonNumeric a = true := by
      rcases h with h | h
      · exact Or.inl h
      · exact Or.inr (h a ha)
    rw [looseEq_of_nonNumeric rt x a hn] at hxa
    have : x = a := by simpa using hxa
    exact this ▸ ha
  · exact in_array_of_mem rt x l

/-- None of the nine default extensions is numeric. -/
theorem defaultTypes_nonNumeric : ∀ a ∈ defaultTypes, nonNumeric a = true := by decide

/-- Every default extension is in lower case. -/
theorem defaultTypes_lower : ∀ a ∈ defaultTypes, strtolower a = a := by decide

/-- The extension check rejects every extension that is not a member of the
allowed set, without reaching `move_uploaded_file`, whenever the extension is
not numeric or no allowed entry is numeric; the second holds for the default
set. -/
theorem upload_rejects_unlisted (rt : PhpRuntime) (r : Request) (user : User)
    (f : UploadedFile) (hauth : r.auth = .ok user) (hfile : r.file = some f)
    (herr : f.error = UPLOAD_ERR_OK)
    (hplain : nonNumeric (fileType r f) = true ∨ ∀ a ∈ allowedTypes r, nonNumeric a = true)
    (hout : strtolower (pathinfoExtension f.name) ∉ allowedTypes r) :
    (upload rt r).status = 200 ∧
    (upload rt r).body = .failure "File type not allowed" ∧
    ∀ e ∈ (upload rt r).effects, e.isMove = false := by
  have hno : in_array rt (fileType r f) (allowedTypes r) = false := by
    rw [← fileType_eq r f] at hout
    rw [Bool.eq_false_iff]
    exact fun h => hout ((in_array_iff_mem rt _ _ hplain).mp h)
  refine ⟨by simp [upload, hauth, hfile, herr, hno], by simp [upload, hauth, hfile, herr, hno], ?_⟩
  have he : (upload rt r).effects = if r.dirExists then [] else [Effect.mkdir uploadDir] := by
    simp [upload, hauth, hfile, herr, hno]
  rw [he]
  exact made_no_move _

/-- C1, at the upload of `scan.1` with `allowedTypes=01`: the extension `1` is
not a member of the allowed set `["01"]`, yet `in_array` finds it (the numeric
strings `1` and `01` are equal under `==`) and the file is moved into the
upload directory. -/
theorem upload_accepts_numeric_lookalike :
    fileType scanRequest ⟨"scan.1", "/tmp/php3", 0, 2048⟩ = "1" ∧
    allowedTypes scanRequest = ["01"] ∧
    "1" ∉ allowedTypes scanRequest ∧
    ∀ rt : PhpRuntime, upload rt scanRequest =
      { status := 200
        body := .success "File uploaded successfully"
          ⟨"6553f1001e240_scan.1", "scan.1", "../uploads/6553f1001e240_scan.1",
            "/uploads/6553f1001e240_scan.1", "1", 2048⟩
        effects := [.moveUploadedFile "/tmp/php3" "../uploads/6553f1001e240_scan.1" true,
          .logActivity 7 "Uploaded file: 6553f1001e240_scan.1"] } := by
  refine ⟨by decide, by decide, by decide, fun rt => ?_⟩
  rfl

/-- The extension check passes every file name whose extension equals, letter
case ignored, an allowed entry that is itself in lower case; every entry of the
default set is. -/
theorem upload_passes_lowercase_member (rt : PhpRuntime) (r : Request) (user : User)
    (f : UploadedFile) (a : String) (hauth : r.auth = .ok user) (hfile : r.file = some f)
    (herr : f.error = UPLOAD_ERR_OK) (ha : a ∈ allowedTypes r) (hlow : strtolower a = a)
    (hext : strtolower (pathinfoExtension f.name) = strtolower a) :
    in_array rt (fileType r f) (allowedTypes r) = true ∧
    (upload rt r).body ≠ .failure "File type not allowed" := by
  have hin : in_array rt (fileType r f) (allowedTypes r) = true := by
    rw [fileType_eq, hext, hlow]
    exact in_array_of_mem rt a _ ha
  refine ⟨hin, ?_⟩
  intro hb
  by_cases hs : (f.size : Int) > maxSize rt r
  · simp [upload, hauth, hfile, herr, hin, hs] at hb
    exact tooLargeMessage_ne_type rt _ hb
  · by_cases hm : r.moveSucceeds = true
    · simp [upload, hauth, hfile, herr, hin, hs, hm] at hb
    · simp [upload, hauth, hfile, herr, hin, hs, hm] at hb

/-- C2, at the upload of `photo.JPG` with `allowedTypes=JPG,PNG`: the extension
`JPG` is a member of the allowed set as it stands, and the handler rejects the
file, because it lowers the extension and not the allowed entries. -/
theorem upload_rejects_uppercase_entry :
    pathinfoExtension "photo.JPG" = "JPG" ∧
    allowedTypes upperRequest = ["JPG", "PNG"] ∧
    pathinfoExtension "photo.JPG" ∈ allowedTypes upperRequest ∧
    fileType upperRequest ⟨"photo.JPG", "/tmp/php4", 0, 2048⟩ = "jpg" ∧
    ∀ rt : PhpRuntime, upload rt upperRequest =
      { status := 200, body := .failure "File type not allowed", effects := [] } := by
  refine ⟨by decide, by decide, by decide, by decide, fun rt => ?_⟩
  rfl

/-! ## The list view -/

/-- C10: `handleDelete` leaves the state as it is when the user declines; when
the request fails it only sets the error; when the request succeeds it only
replaces the list by the old list without the employees whose id is `id`: the
others stay, in their order, so no employee with that id is left and the list
is not longer than before. -/
theorem handleDelete_list (s : ListState) (id : JsVal) (result : AxiosResult Unit)
    (error : ThrownError) (data : Option Unit) :
    handleDelete s false id result = s ∧
    handleDelete s true id (.rejected error)
      = { s with error := .str "Failed to delete employee. Please try again." } ∧
    (handleDelete s true id (.rejected error)).employees = s.employees ∧
    handleDelete s true id (.resolved data)
      = { s with employees := s.employees.filter (fun e => decide (e.id ≠ id)) } ∧
    (∀ e, e ∈ (handleDelete s true id (.resolved data)).employees
      ↔ e ∈ s.employees ∧ e.id ≠ id) ∧
    List.Sublist (handleDelete s true id (.resolved data)).employees s.employees ∧
    (handleDelete s true id (.resolved data)).employees.length ≤ s.employees.length := by
  have hres : handleDelete s true id (.resolved data)
      = { s with employees := s.employees.filter (fun e => decide (e.id ≠ id)) } := by
    have hfun : (fun employee : Employee => employee.id != id)
        = (fun e => decide (e.id ≠ id)) := by
      funext e
      by_cases h : e.id = id <;> simp [h]
    simp [handleDelete, hfun]
  refine ⟨rfl, rfl, rfl, hres, ?_, ?_, ?_⟩
  · intro e
    rw [hres]
    simp [List.mem_filter]
  · rw [hres]
    exact List.filter_sublist _
  · rw [hres]
    exact List.length_filter_le _ _

theorem handleDelete_list_witness :
    (handleDelete threeEmployees true (.num 2) (.resolved (some ()))).employees
      = [employee 1 "Ana", employee 3 "Cy"] ∧
    handleDelete threeEmployees false (.num 2) (.resolved (some ())) = threeEmployees :=
  ⟨(congrArg ListState.employees
      (handleDelete_list threeEmployees (.num 2) (.resolved (some ())) (httpError 500)
        (some ())).2.2.2.1).trans (by decide),
    (handleDelete_list threeEmployees (.num 2) (.resolved (some ())) (httpError 500)
      (some ())).1⟩

/-! ## The login view -/

end EMS
